import Mathlib

/-!
Shallow embedding of the LTV risk-control core of the volatility-rebalance
application (`backend/services/strategy_engine.py` and
`backend/utils/calculations.py`).

Numbers are modelled as exact rationals.  External gateway interactions
(`BinanceClient`) are modelled by a `Gateway` record: query results are
`Option`-valued (a `none` models a raised request exception), price queries
consume a per-symbol stream of responses so that successive calls for the
same symbol may fail independently, and the action endpoints
(borrow / repay / redeem / subscribe) are boolean oracles deciding whether
the call succeeds or raises.  Every externally visible effect of the engine
(gateway action call, database commit, status change, ledger append, alert)
is recorded as an `Event` in a trace, and Python's in-place attribute
mutation together with try/except control flow is made explicit: functions
that may raise return the state as mutated so far together with an `ok` flag.
-/

namespace VRA

/-- One row of a spot wallet balance response. -/
structure SpotBalance where
  asset : String
  free : ℚ
  locked : ℚ
  deriving DecidableEq, Repr

/-- One row of a Simple-Earn position response. -/
structure EarnRow where
  asset : String
  productId : String
  totalAmount : ℚ
  freeAmount : ℚ
  deriving DecidableEq, Repr

/-- The shape returned by `get_earn_balance`. -/
structure EarnBalances where
  flexible : List EarnRow
  locked : List EarnRow
  deriving DecidableEq, Repr

/-- One row of the ongoing-loan response. -/
structure LoanRow where
  orderId : Nat
  loanCoin : String
  status : String
  totalAmount : ℚ
  deriving DecidableEq, Repr

/-- The shape returned by `get_loan_data`. -/
structure LoanData where
  rows : List LoanRow
  deriving DecidableEq, Repr

/-- The `Portfolio` database record, restricted to the fields the strategy
engine reads or writes. -/
structure Portfolio where
  id : Nat
  user_id : Nat
  eth_balance : ℚ
  sol_balance : ℚ
  eth_price : ℚ
  sol_price : ℚ
  total_value : ℚ
  current_ltv : ℚ
  status : String
  last_updated : Nat
  deriving DecidableEq, Repr

/-- The model of the external exchange gateway.  `ethPrices` / `solPrices`
are the streams of successive responses to `get_symbol_price` for the two
symbols; an entry `none` (or stream exhaustion) models a raised request
exception on that call.  The `...Ok` oracles decide whether an action call
succeeds or raises. -/
structure Gateway where
  now : Nat
  spot : Option (List SpotBalance)
  earn : Option EarnBalances
  loan : Option LoanData
  ethPrices : List (Option ℚ)
  solPrices : List (Option ℚ)
  borrowOk : String → ℚ → String → Bool
  repayOk : Nat → ℚ → Bool
  redeemOk : String → ℚ → Bool
  subscribeOk : String → ℚ → Bool

/-- Mutable engine-level state: the `is_running` guard, the `last_prices`
dictionary, and the read positions in the two price streams. -/
structure EngineState where
  is_running : Bool
  lastETH : ℚ
  lastSOL : ℚ
  ethPriceIdx : Nat
  solPriceIdx : Nat
  deriving DecidableEq, Repr

/-- Externally visible effects of one engine run, in program order. -/
inductive Event where
  | commit (total_value borrowed_value : ℚ)
  | borrow (coin : String) (amount : ℚ) (collateralCoin : String)
  | repay (orderId : Nat) (amount : ℚ)
  | redeem (productId : String) (amount : ℚ)
  | subscribe (productId : String) (amount : ℚ)
  | sleep (seconds : ℚ)
  | setStatus (status : String)
  | alert (title severity alert_type : String)
  | logTx (user_id : Nat) (transaction_type : String) (eth_amount sol_amount ltv : ℚ)
  deriving DecidableEq, Repr

/-- Result of a step that, in Python, may raise: the engine state and the
portfolio as mutated so far, the events emitted so far, and whether the step
completed without an exception. -/
structure StepResult where
  es : EngineState
  p : Portfolio
  events : List Event
  ok : Bool
  deriving Repr

/-- Strategy constant `TARGET_LTV_MIN = 0.55`. -/
def TARGET_LTV_MIN : ℚ := 55 / 100

/-- Strategy constant `TARGET_LTV_MAX = 0.65`. -/
def TARGET_LTV_MAX : ℚ := 65 / 100

/-- Strategy constant `DANGER_LTV = 0.70`. -/
def DANGER_LTV : ℚ := 70 / 100

/-- Strategy constant `EMERGENCY_LTV = 0.75`. -/
def EMERGENCY_LTV : ℚ := 75 / 100

/-- Strategy constant `REBALANCE_THRESHOLD = 0.05`. -/
def REBALANCE_THRESHOLD : ℚ := 5 / 100

/-- `calculate_ltv` from `backend/utils/calculations.py`. -/
def calculate_ltv (collateral_value borrowed_value : ℚ) : ℚ :=
  if collateral_value ≤ 0 then 0 else borrowed_value / collateral_value

/-- `get_symbol_price`: consume the next response from the stream of the
requested symbol, advancing the corresponding read index. -/
def get_symbol_price (gw : Gateway) (es : EngineState) (symbol : String) :
    Option ℚ × EngineState :=
  if symbol = "ETHUSDT" then
    (gw.ethPrices.getD es.ethPriceIdx none, { es with ethPriceIdx := es.ethPriceIdx + 1 })
  else if symbol = "SOLUSDT" then
    (gw.solPrices.getD es.solPriceIdx none, { es with solPriceIdx := es.solPriceIdx + 1 })
  else (none, es)

/-- `StrategyEngine._get_total_balance`: spot free+locked plus flexible and
locked earn totals for one asset. -/
def get_total_balance (asset : String) (spot : List SpotBalance) (earn : EarnBalances) : ℚ :=
  let t1 := spot.foldl (fun t b => if b.asset = asset then t + (b.free + b.locked) else t) 0
  let t2 := earn.flexible.foldl (fun t r => if r.asset = asset then t + r.totalAmount else t) t1
  earn.locked.foldl (fun t r => if r.asset = asset then t + r.totalAmount else t) t2

/-- `StrategyEngine._calculate_total_borrowed_value`, with the price queries
it performs per BORROWING row made explicit; returns `none` in the first
component when a price query raises (streams consumed up to that point). -/
def calc_total_borrowed_value (gw : Gateway) : EngineState → ℚ → List LoanRow → Option ℚ × EngineState
  | es, acc, [] => (some acc, es)
  | es, acc, row :: rest =>
    if row.status = "BORROWING" then
      if row.loanCoin = "ETH" then
        match get_symbol_price gw es "ETHUSDT" with
        | (none, es') => (none, es')
        | (some price, es') => calc_total_borrowed_value gw es' (acc + row.totalAmount * price) rest
      else if row.loanCoin = "SOL" then
        match get_symbol_price gw es "SOLUSDT" with
        | (none, es') => (none, es')
        | (some price, es') => calc_total_borrowed_value gw es' (acc + row.totalAmount * price) rest
      else calc_total_borrowed_value gw es acc rest
    else calc_total_borrowed_value gw es acc rest

/-- `StrategyEngine._check_price_movements`.  Returns `none` on the
`ZeroDivisionError` path (last SOL price recorded as 0 while last ETH price
is nonzero). -/
def check_price_movements (es : EngineState) (eth_price sol_price : ℚ) : Option EngineState :=
  if es.lastETH = 0 then some { es with lastETH := eth_price, lastSOL := sol_price }
  else if es.lastSOL = 0 then none
  else
    let eth_change := |eth_price - es.lastETH| / es.lastETH
    let sol_change := |sol_price - es.lastSOL| / es.lastSOL
    if eth_change > REBALANCE_THRESHOLD ∨ sol_change > REBALANCE_THRESHOLD then
      some { es with lastETH := eth_price, lastSOL := sol_price }
    else some es

/-- The fetch-and-compute phase of `StrategyEngine._update_portfolio_data`,
up to and including the assignment of the refreshed fields.  On a raised
exception it returns the portfolio as mutated so far (Python mutates the ORM
object in place before the borrowed-value computation runs).  On success it
returns the fully refreshed portfolio together with the computed collateral
and borrowed values. -/
def snapshotCore (gw : Gateway) (es : EngineState) (p : Portfolio) :
    (EngineState × Portfolio) ⊕ (EngineState × Portfolio × ℚ × ℚ) :=
  match gw.spot with
  | none => Sum.inl (es, p)
  | some spot =>
    match gw.earn with
    | none => Sum.inl (es, p)
    | some earn =>
      match gw.loan with
      | none => Sum.inl (es, p)
      | some loan =>
        match get_symbol_price gw es "ETHUSDT" with
        | (none, es1) => Sum.inl (es1, p)
        | (some eth_price, es1) =>
          match get_symbol_price gw es1 "SOLUSDT" with
          | (none, es2) => Sum.inl (es2, p)
          | (some sol_price, es2) =>
            let p1 : Portfolio :=
              { p with
                eth_balance := get_total_balance "ETH" spot earn
                sol_balance := get_total_balance "SOL" spot earn
                eth_price := eth_price
                sol_price := sol_price }
            let total_collateral_value := p1.eth_balance * eth_price + p1.sol_balance * sol_price
            match calc_total_borrowed_value gw es2 0 loan.rows with
            | (none, es3) => Sum.inl (es3, p1)
            | (some total_borrowed_value, es3) =>
              Sum.inr (es3,
                { p1 with
                  total_value := total_collateral_value
                  current_ltv :=
                    if total_collateral_value > 0 then total_borrowed_value / total_collateral_value
                    else 0
                  last_updated := gw.now },
                total_collateral_value, total_borrowed_value)

/-- `StrategyEngine._update_portfolio_data`: fetch, compute, assign, commit,
then check price movements; re-raises on any failure (`ok = false`). -/
def update_portfolio_data (gw : Gateway) (es : EngineState) (p : Portfolio) : StepResult :=
  match snapshotCore gw es p with
  | Sum.inl (es', p') => ⟨es', p', [], false⟩
  | Sum.inr (es', p2, tcv, tbv) =>
    match check_price_movements es' p2.eth_price p2.sol_price with
    | none => ⟨es', p2, [Event.commit tcv tbv], false⟩
    | some es'' => ⟨es'', p2, [Event.commit tcv tbv], true⟩

/-- Merge the result of a body wrapped in a catch-all `try/except`: the
events emitted before a raised exception are kept, the exception is
swallowed. -/
def unwrapE : (List Event) ⊕ (List Event) → List Event
  | Sum.inl evs => evs
  | Sum.inr evs => evs

/-- The repayment fraction of `_decrease_leverage`: 50% in the aggressive
(danger) mode, 20% in normal mode. -/
def repay_fraction (aggressive : Bool) : ℚ := if aggressive then 1 / 2 else 1 / 5

/-- The loop of `StrategyEngine._decrease_leverage` over the loan rows.
`Sum.inl` carries the events emitted before a repay call raised. -/
def decreaseLoop (gw : Gateway) (p : Portfolio) (aggressive : Bool) :
    List LoanRow → (List Event) ⊕ (List Event)
  | [] => Sum.inr []
  | row :: rest =>
    if row.status = "BORROWING" then
      let repay_amount := row.totalAmount * repay_fraction aggressive
      if row.loanCoin = "ETH" ∧ p.eth_balance ≥ repay_amount then
        if gw.repayOk row.orderId repay_amount then
          match decreaseLoop gw p aggressive rest with
          | Sum.inl evs => Sum.inl (Event.repay row.orderId repay_amount :: evs)
          | Sum.inr evs => Sum.inr (Event.repay row.orderId repay_amount :: evs)
        else Sum.inl []
      else if row.loanCoin = "SOL" ∧ p.sol_balance ≥ repay_amount then
        if gw.repayOk row.orderId repay_amount then
          match decreaseLoop gw p aggressive rest with
          | Sum.inl evs => Sum.inl (Event.repay row.orderId repay_amount :: evs)
          | Sum.inr evs => Sum.inr (Event.repay row.orderId repay_amount :: evs)
        else Sum.inl []
      else decreaseLoop gw p aggressive rest
    else decreaseLoop gw p aggressive rest

/-- `StrategyEngine._decrease_leverage`: one catch-all around the loan fetch
and the whole loop. -/
def decrease_leverage (gw : Gateway) (p : Portfolio) (aggressive : Bool) : List Event :=
  match gw.loan with
  | none => []
  | some loans => unwrapE (decreaseLoop gw p aggressive loans.rows)

/-- `StrategyEngine._increase_leverage`: sizing plus the two borrow legs,
all inside one catch-all `try/except`.  A division by a zero price models
Python's `ZeroDivisionError` (caught by the same handler). -/
def increase_leverage (gw : Gateway) (p : Portfolio) : List Event :=
  let target_ltv := (TARGET_LTV_MIN + TARGET_LTV_MAX) / 2
  let current_collateral_value := p.total_value
  let target_borrowed_value := current_collateral_value * target_ltv
  let current_borrowed_value := current_collateral_value * p.current_ltv
  let additional_borrow_needed := target_borrowed_value - current_borrowed_value
  if additional_borrow_needed ≤ 0 then []
  else if p.eth_price = 0 then []
  else if p.sol_price = 0 then []
  else
    let eth_borrow_amount := additional_borrow_needed * (1 / 2) / p.eth_price
    let sol_borrow_amount := additional_borrow_needed * (1 / 2) / p.sol_price
    if eth_borrow_amount > 1 / 1000 then
      if gw.borrowOk "ETH" eth_borrow_amount "SOL" then
        if sol_borrow_amount > 1 / 1000 then
          if gw.borrowOk "SOL" sol_borrow_amount "ETH" then
            [Event.borrow "ETH" eth_borrow_amount "SOL", Event.borrow "SOL" sol_borrow_amount "ETH"]
          else [Event.borrow "ETH" eth_borrow_amount "SOL"]
        else [Event.borrow "ETH" eth_borrow_amount "SOL"]
      else []
    else
      if sol_borrow_amount > 1 / 1000 then
        if gw.borrowOk "SOL" sol_borrow_amount "ETH" then
          [Event.borrow "SOL" sol_borrow_amount "ETH"]
        else []
      else []

/-- The loop of `StrategyEngine._harvest_earn_rewards` over the flexible
earn rows.  `Sum.inl` carries the events emitted before a redeem or
subscribe call raised. -/
def harvestLoop (gw : Gateway) : List EarnRow → (List Event) ⊕ (List Event)
  | [] => Sum.inr []
  | pos :: rest =>
    if (pos.asset = "ETH" ∨ pos.asset = "SOL") ∧ pos.totalAmount > 0 then
      let available_amount := pos.freeAmount
      if available_amount > 0 then
        if gw.redeemOk pos.productId available_amount then
          if gw.subscribeOk pos.productId available_amount then
            match harvestLoop gw rest with
            | Sum.inl evs =>
              Sum.inl (Event.redeem pos.productId available_amount :: Event.sleep 1 ::
                Event.subscribe pos.productId available_amount :: evs)
            | Sum.inr evs =>
              Sum.inr (Event.redeem pos.productId available_amount :: Event.sleep 1 ::
                Event.subscribe pos.productId available_amount :: evs)
          else Sum.inl [Event.redeem pos.productId available_amount, Event.sleep 1]
        else Sum.inl []
      else harvestLoop gw rest
    else harvestLoop gw rest

/-- `StrategyEngine._harvest_earn_rewards`: one catch-all around the earn
fetch and the whole position loop. -/
def harvest_earn_rewards (gw : Gateway) : List Event :=
  match gw.earn with
  | none => []
  | some earn_balances => unwrapE (harvestLoop gw earn_balances.flexible)

/-- The redeem loop of `StrategyEngine._liquidate_all_positions`. -/
def liqRedeemLoop (gw : Gateway) : List EarnRow → (List Event) ⊕ (List Event)
  | [] => Sum.inr []
  | pos :: rest =>
    if pos.asset = "ETH" ∨ pos.asset = "SOL" then
      if pos.totalAmount > 0 then
        if gw.redeemOk pos.productId pos.totalAmount then
          match liqRedeemLoop gw rest with
          | Sum.inl evs => Sum.inl (Event.redeem pos.productId pos.totalAmount :: evs)
          | Sum.inr evs => Sum.inr (Event.redeem pos.productId pos.totalAmount :: evs)
        else Sum.inl []
      else liqRedeemLoop gw rest
    else liqRedeemLoop gw rest

/-- The repay loop of `StrategyEngine._liquidate_all_positions`: full
outstanding amount, no balance check. -/
def liqRepayLoop (gw : Gateway) : List LoanRow → (List Event) ⊕ (List Event)
  | [] => Sum.inr []
  | row :: rest =>
    if row.status = "BORROWING" then
      if gw.repayOk row.orderId row.totalAmount then
        match liqRepayLoop gw rest with
        | Sum.inl evs => Sum.inl (Event.repay row.orderId row.totalAmount :: evs)
        | Sum.inr evs => Sum.inr (Event.repay row.orderId row.totalAmount :: evs)
      else Sum.inl []
    else liqRepayLoop gw rest

/-- `StrategyEngine._liquidate_all_positions`: redeem flexible positions,
fixed 10-second wait, repay all BORROWING loans in full; one catch-all
around the whole sequence. -/
def liquidate_all_positions (gw : Gateway) : List Event :=
  match gw.earn with
  | none => []
  | some earn_balances =>
    match liqRedeemLoop gw earn_balances.flexible with
    | Sum.inl evs => evs
    | Sum.inr evs1 =>
      let evs1 := evs1 ++ [Event.sleep 10]
      match gw.loan with
      | none => evs1
      | some loans =>
        match liqRepayLoop gw loans.rows with
        | Sum.inl evs2 => evs1 ++ evs2
        | Sum.inr evs2 => evs1 ++ evs2

/-- `send_alert` from `backend/utils/notifications.py` as called with its
default keyword arguments (severity `INFO`, alert type `SYSTEM`); it stores
one `SystemAlert` record and never raises. -/
def send_alert_default (title : String) : List Event :=
  [Event.alert title "INFO" "SYSTEM"]

/-- `StrategyEngine._log_transaction`: one ledger append carrying the
portfolio's balances and LTV at the time of the call. -/
def log_transaction (p : Portfolio) (transaction_type : String) : List Event :=
  [Event.logTx p.user_id transaction_type p.eth_balance p.sol_balance p.current_ltv]

/-- `StrategyEngine._normal_operation`: harvest, then the under/over
leverage adjustment, then exactly one ledger append. -/
def normal_operation (gw : Gateway) (p : Portfolio) : List Event :=
  harvest_earn_rewards gw ++
  (if p.current_ltv < TARGET_LTV_MIN then increase_leverage gw p
   else if p.current_ltv > TARGET_LTV_MAX then decrease_leverage gw p false
   else []) ++
  log_transaction p "NORMAL_OPERATION"

/-- `StrategyEngine._danger_zone_management`: aggressive leverage decrease,
one alert (default severity), one ledger append. -/
def danger_zone_management (gw : Gateway) (p : Portfolio) : List Event :=
  decrease_leverage gw p true ++
  send_alert_default "Danger Zone Alert" ++
  log_transaction p "DANGER_ZONE"

/-- `StrategyEngine._emergency_liquidation`: set status to `emergency`,
liquidate, one alert (default severity), one ledger append. -/
def emergency_liquidation (gw : Gateway) (p : Portfolio) : Portfolio × List Event :=
  let p' := { p with status := "emergency" }
  (p',
    Event.setStatus "emergency" :: liquidate_all_positions gw ++
    send_alert_default "EMERGENCY LIQUIDATION" ++
    log_transaction p' "EMERGENCY_LIQUIDATION")

/-- `StrategyEngine._process_portfolio`: refresh the snapshot, then dispatch
on the refreshed LTV; its catch-all makes the step itself never raise. -/
def process_portfolio (gw : Gateway) (es : EngineState) (p : Portfolio) : StepResult :=
  let u := update_portfolio_data gw es p
  if u.ok then
    if u.p.current_ltv ≥ EMERGENCY_LTV then
      let r := emergency_liquidation gw u.p
      ⟨u.es, r.1, u.events ++ r.2, true⟩
    else if u.p.current_ltv ≥ DANGER_LTV then
      ⟨u.es, u.p, u.events ++ danger_zone_management gw u.p, true⟩
    else
      ⟨u.es, u.p, u.events ++ normal_operation gw u.p, true⟩
  else ⟨u.es, u.p, u.events, true⟩

/-- The loop of `run_automation_cycle` over the portfolios, processing the
active ones (the query filters on `status = 'active'`). -/
def processAll (gw : Gateway) : EngineState → List Portfolio → EngineState × List Portfolio × List Event
  | es, [] => (es, [], [])
  | es, p :: rest =>
    if p.status = "active" then
      let r := process_portfolio gw es p
      let rec' := processAll gw r.es rest
      (rec'.1, r.p :: rec'.2.1, r.events ++ rec'.2.2)
    else
      let rec' := processAll gw es rest
      (rec'.1, p :: rec'.2.1, rec'.2.2)

/-- `StrategyEngine.run_automation_cycle`: the `is_running` guard, the pass
over active portfolios, and the `finally` release of the guard. -/
def run_automation_cycle (gw : Gateway) (es : EngineState) (ps : List Portfolio) :
    EngineState × List Portfolio × List Event :=
  if es.is_running then (es, ps, [])
  else
    let es1 := { es with is_running := true }
    let r := processAll gw es1 ps
    ({ r.1 with is_running := false }, r.2.1, r.2.2)

/-- The five risk tiers of the control loop. -/
inductive Tier where
  | normalUnder
  | normalSafe
  | normalOver
  | danger
  | emergency
  deriving DecidableEq, Repr

/-- The tier classification implemented by the dispatch in
`_process_portfolio` combined with the band checks in `_normal_operation`. -/
def classifyTier (ltv mn mx dg em : ℚ) : Tier :=
  if ltv ≥ em then Tier.emergency
  else if ltv ≥ dg then Tier.danger
  else if ltv < mn then Tier.normalUnder
  else if ltv > mx then Tier.normalOver
  else Tier.normalSafe

/-- The event trace of the action branch belonging to each tier. -/
def tierAction (gw : Gateway) (p : Portfolio) : Tier → List Event
  | Tier.emergency => (emergency_liquidation gw p).2
  | Tier.danger => danger_zone_management gw p
  | Tier.normalUnder => harvest_earn_rewards gw ++ increase_leverage gw p ++
      log_transaction p "NORMAL_OPERATION"
  | Tier.normalOver => harvest_earn_rewards gw ++ decrease_leverage gw p false ++
      log_transaction p "NORMAL_OPERATION"
  | Tier.normalSafe => harvest_earn_rewards gw ++ log_transaction p "NORMAL_OPERATION"

/-- A snapshot build fails on one of its five initial queries (spot, earn,
loan, first ETH price, first SOL price). -/
def initial_query_failure (gw : Gateway) (es : EngineState) : Prop :=
  gw.spot = none ∨ gw.earn = none ∨ gw.loan = none ∨
  gw.ethPrices.getD es.ethPriceIdx none = none ∨
  gw.solPrices.getD es.solPriceIdx none = none

/-- Recognizer for ledger-append events. -/
def isLogTx : Event → Bool
  | Event.logTx _ _ _ _ _ => true
  | _ => false

/-- The repay events the decrease path issues when no repay call raises:
one per BORROWING loan whose asset balance covers the sized fraction. -/
def expected_repays (p : Portfolio) (aggressive : Bool) (rows : List LoanRow) : List Event :=
  rows.filterMap fun row =>
    if row.status = "BORROWING" then
      let amt := row.totalAmount * repay_fraction aggressive
      if (row.loanCoin = "ETH" ∧ p.eth_balance ≥ amt) ∨ (row.loanCoin = "SOL" ∧ p.sol_balance ≥ amt)
      then some (Event.repay row.orderId amt) else none
    else none

/-- The redeem events the liquidation sequence issues when no call raises:
one per flexible position in the two strategy assets with positive amount. -/
def expected_liq_redeems (rows : List EarnRow) : List Event :=
  rows.filterMap fun pos =>
    if (pos.asset = "ETH" ∨ pos.asset = "SOL") ∧ pos.totalAmount > 0
    then some (Event.redeem pos.productId pos.totalAmount) else none

/-- The repay events the liquidation sequence issues when no call raises:
full outstanding amount per BORROWING loan. -/
def expected_liq_repays (rows : List LoanRow) : List Event :=
  rows.filterMap fun row =>
    if row.status = "BORROWING"
    then some (Event.repay row.orderId row.totalAmount) else none

/-! ### Concrete fixtures used by witnesses and counterexamples -/

/-- A gateway on which every query and every action call succeeds. -/
def gwAllOk : Gateway :=
  { now := 100
    spot := some [⟨"ETH", 3, 0⟩, ⟨"SOL", 20, 0⟩]
    earn := some ⟨[⟨"ETH", "PE", 2, 1⟩], []⟩
    loan := some ⟨[⟨1, "ETH", "BORROWING", 2⟩, ⟨2, "SOL", "BORROWING", 10⟩]⟩
    ethPrices := [some 2000, some 2000, some 2000]
    solPrices := [some 100, some 100, some 100]
    borrowOk := fun _ _ _ => true
    repayOk := fun _ _ => true
    redeemOk := fun _ _ => true
    subscribeOk := fun _ _ => true }

/-- Like `gwAllOk`, but the second ETH price query (the one issued inside the
borrowed-value computation) raises. -/
def gwRequeryFail : Gateway :=
  { gwAllOk with ethPrices := [some 2000, none], solPrices := [some 100] }

/-- Like `gwAllOk`, but the spot-balance query raises. -/
def gwSpotFail : Gateway := { gwAllOk with spot := none }

/-- Like `gwAllOk`, but every ETH borrow call raises while SOL borrow calls
still succeed. -/
def gwEthBorrowFail : Gateway :=
  { gwAllOk with borrowOk := fun coin _ _ => !(coin == "ETH") }

/-- Like `gwAllOk`, but the only open earn position is a locked ETH position,
and there are no loans. -/
def gwLockedOnly : Gateway :=
  { gwAllOk with earn := some ⟨[], [⟨"ETH", "LP", 5, 0⟩]⟩, loan := some ⟨[]⟩ }

/-- Fresh engine state, guard not held. -/
def esIdle : EngineState := ⟨false, 0, 0, 0, 0⟩

/-- Engine state with the `is_running` guard already held. -/
def esBusy : EngineState := ⟨true, 0, 0, 0, 0⟩

/-- A stale portfolio record (every numeric field 7) about to be refreshed. -/
def pStale : Portfolio := ⟨1, 1, 7, 7, 7, 7, 7, 7, "active", 0⟩

/-- A portfolio snapshot that is under-levered (LTV 0.5). -/
def pUnder : Portfolio := ⟨1, 1, 3, 20, 2000, 100, 10000, 1 / 2, "active", 0⟩

/-- A portfolio snapshot in the danger band (LTV 0.72). -/
def pDangerBand : Portfolio := ⟨1, 1, 3, 20, 2000, 100, 10000, 18 / 25, "active", 0⟩

/-- A portfolio snapshot above the emergency threshold (LTV 0.78). -/
def pEmergencyBand : Portfolio := ⟨1, 1, 3, 20, 2000, 100, 10000, 39 / 50, "active", 0⟩

/-- An over-levered portfolio snapshot whose ETH balance is too small to
cover the 20% repayment of the ETH loan. -/
def pLowEth : Portfolio := ⟨1, 1, 1 / 10, 20, 2000, 100, 10000, 3 / 5, "active", 0⟩

/-! ### Helper lemmas -/

theorem get_symbol_price_eth (gw : Gateway) (es : EngineState) :
    get_symbol_price gw es "ETHUSDT" =
      (gw.ethPrices.getD es.ethPriceIdx none, { es with ethPriceIdx := es.ethPriceIdx + 1 }) := by
  simp [get_symbol_price]

theorem get_symbol_price_sol (gw : Gateway) (es : EngineState) :
    get_symbol_price gw es "SOLUSDT" =
      (gw.solPrices.getD es.solPriceIdx none, { es with solPriceIdx := es.solPriceIdx + 1 }) := by
  simp [get_symbol_price]

theorem update_of_inl (gw : Gateway) (es : EngineState) (p : Portfolio)
    (es' : EngineState) (p' : Portfolio)
    (h : snapshotCore gw es p = Sum.inl (es', p')) :
    update_portfolio_data gw es p = ⟨es', p', [], false⟩ := by
  unfold update_portfolio_data
  rw [h]

theorem update_of_inr_none (gw : Gateway) (es : EngineState) (p : Portfolio)
    (es' : EngineState) (p2 : Portfolio) (tcv tbv : ℚ)
    (h : snapshotCore gw es p = Sum.inr (es', p2, tcv, tbv))
    (hc : check_price_movements es' p2.eth_price p2.sol_price = none) :
    update_portfolio_data gw es p = ⟨es', p2, [Event.commit tcv tbv], false⟩ := by
  unfold update_portfolio_data
  rw [h]
  simp only [hc]

theorem update_of_inr_some (gw : Gateway) (es : EngineState) (p : Portfolio)
    (es' es'' : EngineState) (p2 : Portfolio) (tcv tbv : ℚ)
    (h : snapshotCore gw es p = Sum.inr (es', p2, tcv, tbv))
    (hc : check_price_movements es' p2.eth_price p2.sol_price = some es'') :
    update_portfolio_data gw es p = ⟨es'', p2, [Event.commit tcv tbv], true⟩ := by
  unfold update_portfolio_data
  rw [h]
  simp only [hc]

theorem update_events_commit (gw : Gateway) (es : EngineState) (p : Portfolio) :
    ∀ e ∈ (update_portfolio_data gw es p).events, ∃ c b, e = Event.commit c b := by
  rcases h : snapshotCore gw es p with ⟨es', p'⟩ | ⟨es', p2, tcv, tbv⟩
  · rw [update_of_inl gw es p es' p' h]
    simp
  · rcases hc : check_price_movements es' p2.eth_price p2.sol_price with _ | es''
    · rw [update_of_inr_none gw es p es' p2 tcv tbv h hc]
      simp
    · rw [update_of_inr_some gw es p es' es'' p2 tcv tbv h hc]
      simp

theorem snapshotCore_inr_fields (gw : Gateway) (es : EngineState) (p : Portfolio)
    (es' : EngineState) (p2 : Portfolio) (tcv tbv : ℚ)
    (h : snapshotCore gw es p = Sum.inr (es', p2, tcv, tbv)) :
    p2.total_value = tcv ∧
    p2.current_ltv = (if tcv > 0 then tbv / tcv else 0) ∧
    p2.status = p.status ∧ p2.user_id = p.user_id ∧ p2.id = p.id := by
  unfold snapshotCore at h
  split at h
  · exact absurd h (by simp)
  · split at h
    · exact absurd h (by simp)
    · split at h
      · exact absurd h (by simp)
      · split at h
        · exact absurd h (by simp)
        · split at h
          · exact absurd h (by simp)
          · split at h
            · exact absurd h (by simp)
            · rw [Sum.inr.injEq, Prod.mk.injEq, Prod.mk.injEq, Prod.mk.injEq] at h
              obtain ⟨h1, hp2, htcv, h4⟩ := h
              subst hp2
              subst htcv
              subst h4
              exact ⟨rfl, rfl, rfl, rfl, rfl⟩

theorem snapshotCore_inl_frame (gw : Gateway) (es : EngineState) (p : Portfolio)
    (es' : EngineState) (p' : Portfolio)
    (h : snapshotCore gw es p = Sum.inl (es', p')) :
    p'.total_value = p.total_value ∧ p'.current_ltv = p.current_ltv ∧
    p'.status = p.status ∧ p'.last_updated = p.last_updated := by
  unfold snapshotCore at h
  split at h
  · rw [Sum.inl.injEq, Prod.mk.injEq] at h
    obtain ⟨-, hp⟩ := h
    subst hp
    exact ⟨rfl, rfl, rfl, rfl⟩
  · split at h
    · rw [Sum.inl.injEq, Prod.mk.injEq] at h
      obtain ⟨-, hp⟩ := h
      subst hp
      exact ⟨rfl, rfl, rfl, rfl⟩
    · split at h
      · rw [Sum.inl.injEq, Prod.mk.injEq] at h
        obtain ⟨-, hp⟩ := h
        subst hp
        exact ⟨rfl, rfl, rfl, rfl⟩
      · split at h
        · rw [Sum.inl.injEq, Prod.mk.injEq] at h
          obtain ⟨-, hp⟩ := h
          subst hp
          exact ⟨rfl, rfl, rfl, rfl⟩
        · split at h
          · rw [Sum.inl.injEq, Prod.mk.injEq] at h
            obtain ⟨-, hp⟩ := h
            subst hp
            exact ⟨rfl, rfl, rfl, rfl⟩
          · split at h
            · rw [Sum.inl.injEq, Prod.mk.injEq] at h
              obtain ⟨-, hp⟩ := h
              subst hp
              exact ⟨rfl, rfl, rfl, rfl⟩
            · exact absurd h (by simp)

/-! ### Claims -/

/-- C1: for every portfolio snapshot, the computed LTV equals
borrowed_value / collateral_value whenever collateral_value > 0 and equals 0
whenever collateral_value = 0, both for the standalone `calculate_ltv`
function and for the LTV written into the Portfolio during snapshot building
(the committed snapshot records exactly the collateral and borrowed values
from which the stored LTV is derived). -/
theorem claim_C1_ltv :
    (∀ collateral_value borrowed_value : ℚ,
      (0 < collateral_value →
        calculate_ltv collateral_value borrowed_value = borrowed_value / collateral_value) ∧
      (collateral_value = 0 → calculate_ltv collateral_value borrowed_value = 0)) ∧
    (∀ gw es p c b,
      (update_portfolio_data gw es p).events = [Event.commit c b] →
        (update_portfolio_data gw es p).p.total_value = c ∧
        (update_portfolio_data gw es p).p.current_ltv = calculate_ltv c b ∧
        (0 < c → (update_portfolio_data gw es p).p.current_ltv = b / c) ∧
        (c = 0 → (update_portfolio_data gw es p).p.current_ltv = 0)) := by
  constructor
  · intro cv bv
    constructor
    · intro h
      simp [calculate_ltv, not_le.mpr h]
    · intro h
      simp [calculate_ltv, h]
  · intro gw es p c b hev
    have hmain : (update_portfolio_data gw es p).p.total_value = c ∧
        (update_portfolio_data gw es p).p.current_ltv = calculate_ltv c b := by
      rcases h : snapshotCore gw es p with ⟨es', p'⟩ | ⟨es', p2, tcv, tbv⟩
      · rw [update_of_inl gw es p es' p' h] at hev
        simp at hev
      · obtain ⟨htv, hltv, -, -, -⟩ := snapshotCore_inr_fields gw es p es' p2 tcv tbv h
        rcases hc : check_price_movements es' p2.eth_price p2.sol_price with _ | es''
        · rw [update_of_inr_none gw es p es' p2 tcv tbv h hc] at hev ⊢
          simp at hev
          obtain ⟨hc1, hc2⟩ := hev
          subst hc1
          subst hc2
          refine ⟨htv, ?_⟩
          rw [hltv, calculate_ltv]
          rcases le_or_lt tcv 0 with hle | hlt
          · rw [if_neg (not_lt.mpr hle), if_pos hle]
          · rw [if_pos hlt, if_neg (not_le.mpr hlt)]
        · rw [update_of_inr_some gw es p es' es'' p2 tcv tbv h hc] at hev ⊢
          simp at hev
          obtain ⟨hc1, hc2⟩ := hev
          subst hc1
          subst hc2
          refine ⟨htv, ?_⟩
          rw [hltv, calculate_ltv]
          rcases le_or_lt tcv 0 with hle | hlt
          · rw [if_neg (not_lt.mpr hle), if_pos hle]
          · rw [if_pos hlt, if_neg (not_le.mpr hlt)]
    refine ⟨hmain.1, hmain.2, ?_, ?_⟩
    · intro hpos
      rw [hmain.2, calculate_ltv, if_neg (not_le.mpr hpos)]
    · intro hz
      rw [hmain.2, calculate_ltv, if_pos (le_of_eq hz)]

/-- C1 witness: on the all-succeeding gateway the refreshed portfolio stores
LTV 5000/12000. -/
theorem claim_C1_ltv_witness :
    (update_portfolio_data gwAllOk esIdle pStale).p.current_ltv = 5000 / 12000 := by
  have h := (claim_C1_ltv.2 gwAllOk esIdle pStale 12000 5000 (by
    norm_num +decide [update_portfolio_data, snapshotCore, get_symbol_price, get_total_balance,
      calc_total_borrowed_value, check_price_movements, gwAllOk, esIdle, pStale,
      REBALANCE_THRESHOLD])).2.2.1 (by norm_num)
  rw [h]

theorem process_events_dispatch (gw : Gateway) (es : EngineState) (p : Portfolio)
    (hok : (update_portfolio_data gw es p).ok = true) :
    (process_portfolio gw es p).events =
      (update_portfolio_data gw es p).events ++
        tierAction gw (update_portfolio_data gw es p).p
          (classifyTier (update_portfolio_data gw es p).p.current_ltv
            TARGET_LTV_MIN TARGET_LTV_MAX DANGER_LTV EMERGENCY_LTV) := by
  rcases h : snapshotCore gw es p with ⟨es', p'⟩ | ⟨es', p2, tcv, tbv⟩
  · rw [update_of_inl gw es p es' p' h] at hok
    simp at hok
  · rcases hc : check_price_movements es' p2.eth_price p2.sol_price with _ | es''
    · rw [update_of_inr_none gw es p es' p2 tcv tbv h hc] at hok
      simp at hok
    · have hu := update_of_inr_some gw es p es' es'' p2 tcv tbv h hc
      rw [hu]
      unfold process_portfolio
      rw [hu]
      simp only []
      unfold classifyTier tierAction normal_operation
      split_ifs with hT h1 h2 h3 h4 <;>
        first
        | rfl
        | exact absurd trivial hT
        | simp

/-- C2: tier classification is a total deterministic function of the LTV and
the four ordered thresholds min < max < danger < emergency: every ltv ≥ 0
falls in exactly one of the five tiers, characterized by
EMERGENCY iff ltv ≥ emergency, DANGER iff danger ≤ ltv < emergency,
NORMAL-under iff ltv < min, NORMAL-safe iff min ≤ ltv ≤ max,
NORMAL-over iff max < ltv < danger; and after a successful snapshot the
cycle dispatches exactly the action branch of the tier of the refreshed
LTV on the default thresholds 0.55/0.65/0.70/0.75. -/
theorem claim_C2_tier_dispatch :
    (∀ ltv mn mx dg em : ℚ, mn < mx → mx < dg → dg < em → 0 ≤ ltv →
      ((classifyTier ltv mn mx dg em = Tier.emergency ↔ em ≤ ltv) ∧
       (classifyTier ltv mn mx dg em = Tier.danger ↔ dg ≤ ltv ∧ ltv < em) ∧
       (classifyTier ltv mn mx dg em = Tier.normalUnder ↔ ltv < mn) ∧
       (classifyTier ltv mn mx dg em = Tier.normalSafe ↔ mn ≤ ltv ∧ ltv ≤ mx) ∧
       (classifyTier ltv mn mx dg em = Tier.normalOver ↔ mx < ltv ∧ ltv < dg))) ∧
    (∀ gw es p, (update_portfolio_data gw es p).ok = true →
      (process_portfolio gw es p).events =
        (update_portfolio_data gw es p).events ++
          tierAction gw (update_portfolio_data gw es p).p
            (classifyTier (update_portfolio_data gw es p).p.current_ltv
              TARGET_LTV_MIN TARGET_LTV_MAX DANGER_LTV EMERGENCY_LTV)) := by
  constructor
  · intro ltv mn mx dg em hab hbc hcd h0
    unfold classifyTier
    split_ifs with he hd hu ho
    · exact ⟨⟨fun _ => he, fun _ => rfl⟩,
        ⟨fun h => (nomatch h), fun h => absurd h.2 (not_lt.mpr he)⟩,
        ⟨fun h => (nomatch h), fun h => absurd h (not_lt.mpr (by linarith))⟩,
        ⟨fun h => (nomatch h), fun h => absurd h.2 (not_le.mpr (by linarith))⟩,
        ⟨fun h => (nomatch h), fun h => absurd h.2 (not_lt.mpr (by linarith))⟩⟩
    · exact ⟨⟨fun h => (nomatch h), fun h => absurd h he⟩,
        ⟨fun _ => ⟨hd, not_le.mp he⟩, fun _ => rfl⟩,
        ⟨fun h => (nomatch h), fun h => absurd h (not_lt.mpr (by linarith))⟩,
        ⟨fun h => (nomatch h), fun h => absurd h.2 (not_le.mpr (by linarith))⟩,
        ⟨fun h => (nomatch h), fun h => absurd h.2 (not_lt.mpr hd)⟩⟩
    · exact ⟨⟨fun h => (nomatch h), fun h => absurd h he⟩,
        ⟨fun h => (nomatch h), fun h => absurd h.1 hd⟩,
        ⟨fun _ => hu, fun _ => rfl⟩,
        ⟨fun h => (nomatch h), fun h => absurd h.1 (not_le.mpr hu)⟩,
        ⟨fun h => (nomatch h), fun h => absurd h.1 (not_lt.mpr (by linarith))⟩⟩
    · exact ⟨⟨fun h => (nomatch h), fun h => absurd h he⟩,
        ⟨fun h => (nomatch h), fun h => absurd h.1 hd⟩,
        ⟨fun h => (nomatch h), fun h => absurd h hu⟩,
        ⟨fun h => (nomatch h), fun h => absurd h.2 (not_le.mpr ho)⟩,
        ⟨fun _ => ⟨ho, not_le.mp hd⟩, fun _ => rfl⟩⟩
    · exact ⟨⟨fun h => (nomatch h), fun h => absurd h he⟩,
        ⟨fun h => (nomatch h), fun h => absurd h.1 hd⟩,
        ⟨fun h => (nomatch h), fun h => absurd h hu⟩,
        ⟨fun _ => ⟨not_lt.mp hu, not_lt.mp ho⟩, fun _ => rfl⟩,
        ⟨fun h => (nomatch h), fun h => absurd h.1 (not_lt.mpr (not_lt.mp ho))⟩⟩
  · exact process_events_dispatch
/-- C2 witness: an LTV of 0.60 on the default thresholds is classified
NORMAL-safe. -/
theorem claim_C2_tier_dispatch_witness :
    classifyTier (60 / 100) (55 / 100) (65 / 100) (70 / 100) (75 / 100) = Tier.normalSafe :=
  ((claim_C2_tier_dispatch.1 (60 / 100) (55 / 100) (65 / 100) (70 / 100) (75 / 100)
    (by norm_num) (by norm_num) (by norm_num) (by norm_num)).2.2.2.1).mpr
    ⟨by norm_num, by norm_num⟩

theorem increase_mem_borrow (gw : Gateway) (p : Portfolio) :
    ∀ e ∈ increase_leverage gw p, ∃ c a cc, e = Event.borrow c a cc := by
  intro e hmem
  simp only [increase_leverage] at hmem
  split_ifs at hmem with h0 h1 h2 h3 h4 h5 h6 <;>
    simp only [List.mem_cons, List.mem_singleton, List.not_mem_nil, or_false] at hmem <;>
    first
    | (obtain rfl | rfl := hmem
       · exact ⟨_, _, _, rfl⟩
       · exact ⟨_, _, _, rfl⟩)
    | (obtain rfl := hmem
       exact ⟨_, _, _, rfl⟩)

/-- C4: on the increase path, the additional borrow is
collateral × (min+max)/2 − current borrowed; if that is ≤ 0 the operation
is a no-op issuing no borrow; otherwise each issued borrow leg is one of the
two 50/50 USD halves converted at the corresponding current price, every
amount passed to a borrow call is nonnegative, and a borrow call is issued
only when the leg's amount exceeds the 0.001-unit minimum. -/
theorem claim_C4_increase_sizing (gw : Gateway) (p : Portfolio) :
    ((p.total_value * ((TARGET_LTV_MIN + TARGET_LTV_MAX) / 2) -
        p.total_value * p.current_ltv) ≤ 0 → increase_leverage gw p = []) ∧
    (∀ c a cc, Event.borrow c a cc ∈ increase_leverage gw p → 0 ≤ a ∧ 1 / 1000 < a) ∧
    (∀ c a cc, Event.borrow c a cc ∈ increase_leverage gw p →
      (c = "ETH" ∧ cc = "SOL" ∧
        a = (p.total_value * ((TARGET_LTV_MIN + TARGET_LTV_MAX) / 2) -
             p.total_value * p.current_ltv) * (1 / 2) / p.eth_price) ∨
      (c = "SOL" ∧ cc = "ETH" ∧
        a = (p.total_value * ((TARGET_LTV_MIN + TARGET_LTV_MAX) / 2) -
             p.total_value * p.current_ltv) * (1 / 2) / p.sol_price)) ∧
    (∀ e ∈ increase_leverage gw p, ∃ c a cc, e = Event.borrow c a cc) := by
  refine ⟨?_, ?_, ?_, ?_⟩
  · intro h0
    simp only [increase_leverage]
    rw [if_pos h0]
  · intro c a cc hmem
    simp only [increase_leverage] at hmem
    split_ifs at hmem with h0 h1 h2 h3 h4 h5 h6 <;>
      simp only [List.mem_cons, List.mem_singleton, List.not_mem_nil, Event.borrow.injEq,
        or_false] at hmem <;>
      first
      | (obtain ⟨rfl, rfl, rfl⟩ | ⟨rfl, rfl, rfl⟩ := hmem
         · constructor <;> linarith
         · constructor <;> linarith)
      | (obtain ⟨rfl, rfl, rfl⟩ := hmem
         constructor <;> linarith)
  · intro c a cc hmem
    simp only [increase_leverage] at hmem
    split_ifs at hmem with h0 h1 h2 h3 h4 h5 h6 <;>
      simp only [List.mem_cons, List.mem_singleton, List.not_mem_nil, Event.borrow.injEq,
        or_false] at hmem <;>
      first
      | (obtain ⟨rfl, rfl, rfl⟩ | ⟨rfl, rfl, rfl⟩ := hmem
         · exact Or.inl ⟨rfl, rfl, rfl⟩
         · exact Or.inr ⟨rfl, rfl, rfl⟩)
      | (obtain ⟨rfl, rfl, rfl⟩ := hmem
         first
         | exact Or.inl ⟨rfl, rfl, rfl⟩
         | exact Or.inr ⟨rfl, rfl, rfl⟩)
  · exact increase_mem_borrow gw p

/-- C4 witness: on a concrete under-levered portfolio the issued ETH borrow
leg of 0.25 units is nonnegative and above the minimum size. -/
theorem claim_C4_increase_sizing_witness : 0 ≤ (1 : ℚ) / 4 ∧ (1 : ℚ) / 1000 < 1 / 4 :=
  (claim_C4_increase_sizing gwAllOk pUnder).2.1 "ETH" (1 / 4) "SOL" (by
    norm_num +decide [increase_leverage, gwAllOk, pUnder, TARGET_LTV_MIN, TARGET_LTV_MAX])

theorem decreaseLoop_mem (gw : Gateway) (p : Portfolio) (agg : Bool) :
    ∀ rows : List LoanRow, ∀ e ∈ unwrapE (decreaseLoop gw p agg rows),
      ∃ row, row ∈ rows ∧ row.status = "BORROWING" ∧
        e = Event.repay row.orderId (row.totalAmount * repay_fraction agg) ∧
        ((row.loanCoin = "ETH" ∧ row.totalAmount * repay_fraction agg ≤ p.eth_balance) ∨
         (row.loanCoin = "SOL" ∧ row.totalAmount * repay_fraction agg ≤ p.sol_balance)) := by
  intro rows
  induction rows with
  | nil =>
    intro e he
    simp [decreaseLoop, unwrapE] at he
  | cons row rest ih =>
    intro e he
    simp only [decreaseLoop] at he
    set amt := row.totalAmount * repay_fraction agg with hamt
    by_cases hst : row.status = "BORROWING"
    · rw [if_pos hst] at he
      by_cases hE : row.loanCoin = "ETH" ∧ p.eth_balance ≥ amt
      · rw [if_pos hE] at he
        by_cases hok1 : gw.repayOk row.orderId amt = true
        · rw [if_pos hok1] at he
          rcases hrest : decreaseLoop gw p agg rest with evs | evs <;> rw [hrest] at he <;>
            simp only [unwrapE, List.mem_cons] at he <;>
            (rcases he with rfl | he
             · exact ⟨row, List.mem_cons_self row rest, hst, rfl, Or.inl ⟨hE.1, hE.2⟩⟩
             · obtain ⟨r, hr, h1, h2, h3⟩ := ih e (by rw [hrest]; simpa [unwrapE] using he)
               exact ⟨r, List.mem_cons_of_mem row hr, h1, h2, h3⟩)
        · rw [if_neg hok1] at he
          simp [unwrapE] at he
      · rw [if_neg hE] at he
        by_cases hS : row.loanCoin = "SOL" ∧ p.sol_balance ≥ amt
        · rw [if_pos hS] at he
          by_cases hok2 : gw.repayOk row.orderId amt = true
          · rw [if_pos hok2] at he
            rcases hrest : decreaseLoop gw p agg rest with evs | evs <;> rw [hrest] at he <;>
              simp only [unwrapE, List.mem_cons] at he <;>
              (rcases he with rfl | he
               · exact ⟨row, List.mem_cons_self row rest, hst, rfl, Or.inr ⟨hS.1, hS.2⟩⟩
               · obtain ⟨r, hr, h1, h2, h3⟩ := ih e (by rw [hrest]; simpa [unwrapE] using he)
                 exact ⟨r, List.mem_cons_of_mem row hr, h1, h2, h3⟩)
          · rw [if_neg hok2] at he
            simp [unwrapE] at he
        · rw [if_neg hS] at he
          obtain ⟨r, hr, h1, h2, h3⟩ := ih e he
          exact ⟨r, List.mem_cons_of_mem row hr, h1, h2, h3⟩
    · rw [if_neg hst] at he
      obtain ⟨r, hr, h1, h2, h3⟩ := ih e he
      exact ⟨r, List.mem_cons_of_mem row hr, h1, h2, h3⟩

theorem decreaseLoop_complete (gw : Gateway) (p : Portfolio) (agg : Bool)
    (hok : ∀ oid a, gw.repayOk oid a = true) :
    ∀ rows : List LoanRow, decreaseLoop gw p agg rows = Sum.inr (expected_repays p agg rows) := by
  intro rows
  induction rows with
  | nil => simp [decreaseLoop, expected_repays]
  | cons row rest ih =>
    simp only [decreaseLoop]
    rw [ih]
    by_cases hst : row.status = "BORROWING"
    · by_cases hE : row.loanCoin = "ETH" ∧
        p.eth_balance ≥ row.totalAmount * repay_fraction agg
      · simp [hst, hE, hok, expected_repays, List.filterMap_cons]
      · by_cases hS : row.loanCoin = "SOL" ∧
          p.sol_balance ≥ row.totalAmount * repay_fraction agg
        · simp [hst, hE, hS, hok, expected_repays, List.filterMap_cons]
        · simp [hst, hE, hS, expected_repays, List.filterMap_cons]
    · simp [hst, expected_repays, List.filterMap_cons]

theorem decrease_only_repays (gw : Gateway) (p : Portfolio) (agg : Bool) :
    ∀ e ∈ decrease_leverage gw p agg, ∃ oid a, e = Event.repay oid a := by
  intro e he
  unfold decrease_leverage at he
  rcases hld : gw.loan with _ | ld
  · rw [hld] at he
    exact absurd he (List.not_mem_nil _)
  · rw [hld] at he
    obtain ⟨row, -, -, h2, -⟩ := decreaseLoop_mem gw p agg ld.rows e he
    exact ⟨row.orderId, row.totalAmount * repay_fraction agg, h2⟩

/-- C5: on the decrease path every issued repay targets a BORROWING loan,
requests exactly 20% (normal) or 50% (aggressive) of its outstanding amount,
and is issued only when the portfolio balance of that loan asset covers it;
and when no repay call raises, the issued repays are exactly those of the
covered BORROWING loans in order, so an uncovered loan is skipped without
aborting the processing of the others. -/
theorem claim_C5_decrease_repays (gw : Gateway) (p : Portfolio) (aggressive : Bool) :
    (∀ oid a, Event.repay oid a ∈ decrease_leverage gw p aggressive →
      ∃ ld row, gw.loan = some ld ∧ row ∈ ld.rows ∧ row.status = "BORROWING" ∧
        row.orderId = oid ∧
        a = row.totalAmount * repay_fraction aggressive ∧
        ((row.loanCoin = "ETH" ∧ a ≤ p.eth_balance) ∨
         (row.loanCoin = "SOL" ∧ a ≤ p.sol_balance))) ∧
    (∀ ld, gw.loan = some ld → (∀ oid amt, gw.repayOk oid amt = true) →
      decrease_leverage gw p aggressive = expected_repays p aggressive ld.rows) := by
  constructor
  · intro oid a hmem
    unfold decrease_leverage at hmem
    rcases hld : gw.loan with _ | ld
    · rw [hld] at hmem
      exact absurd hmem (List.not_mem_nil _)
    · rw [hld] at hmem
      obtain ⟨row, hr, h1, h2, h3⟩ := decreaseLoop_mem gw p aggressive ld.rows _ hmem
      rw [Event.repay.injEq] at h2
      exact ⟨ld, row, rfl, hr, h1, h2.1.symm, h2.2, by rw [h2.2]; exact h3⟩
  · intro ld hld hok
    unfold decrease_leverage
    rw [hld]
    show unwrapE (decreaseLoop gw p aggressive ld.rows) = expected_repays p aggressive ld.rows
    rw [decreaseLoop_complete gw p aggressive hok ld.rows]
    rfl

/-- C5 witness: on a concrete portfolio whose ETH balance cannot cover the
ETH repayment, only the covered SOL loan is repaid (by 20% = 2 units) and
the uncovered ETH loan is skipped without stopping the loop. -/
theorem claim_C5_decrease_repays_witness :
    decrease_leverage gwAllOk pLowEth false = [Event.repay 2 2] := by
  have h := (claim_C5_decrease_repays gwAllOk pLowEth false).2
    ⟨[⟨1, "ETH", "BORROWING", 2⟩, ⟨2, "SOL", "BORROWING", 10⟩]⟩ rfl (fun _ _ => rfl)
  rw [h]
  simp [expected_repays, List.filterMap_cons, List.filterMap_nil, repay_fraction, pLowEth]
  norm_num

theorem harvestLoop_mem (gw : Gateway) :
    ∀ rows : List EarnRow, ∀ e ∈ unwrapE (harvestLoop gw rows),
      (∃ pid a, e = Event.redeem pid a) ∨ e = Event.sleep 1 ∨
      ∃ pid a, e = Event.subscribe pid a := by
  intro rows
  induction rows with
  | nil =>
    intro e he
    simp [harvestLoop, unwrapE] at he
  | cons pos rest ih =>
    intro e he
    simp only [harvestLoop] at he
    by_cases h1 : (pos.asset = "ETH" ∨ pos.asset = "SOL") ∧ pos.totalAmount > 0
    · rw [if_pos h1] at he
      by_cases h2 : pos.freeAmount > 0
      · rw [if_pos h2] at he
        by_cases h3 : gw.redeemOk pos.productId pos.freeAmount = true
        · rw [if_pos h3] at he
          by_cases h4 : gw.subscribeOk pos.productId pos.freeAmount = true
          · rw [if_pos h4] at he
            rcases hrest : harvestLoop gw rest with evs | evs <;> rw [hrest] at he <;>
              simp only [unwrapE, List.mem_cons] at he <;>
              (rcases he with rfl | rfl | rfl | he
               · exact Or.inl ⟨_, _, rfl⟩
               · exact Or.inr (Or.inl rfl)
               · exact Or.inr (Or.inr ⟨_, _, rfl⟩)
               · exact ih e (by rw [hrest]; simpa [unwrapE] using he))
          · rw [if_neg h4] at he
            simp only [unwrapE, List.mem_cons, List.mem_singleton, List.not_mem_nil,
              or_false] at he
            rcases he with rfl | rfl
            · exact Or.inl ⟨_, _, rfl⟩
            · exact Or.inr (Or.inl rfl)
        · rw [if_neg h3] at he
          simp [unwrapE] at he
      · rw [if_neg h2] at he
        exact ih e he
    · rw [if_neg h1] at he
      exact ih e he

theorem harvest_mem_shape (gw : Gateway) :
    ∀ e ∈ harvest_earn_rewards gw,
      (∃ pid a, e = Event.redeem pid a) ∨ e = Event.sleep 1 ∨
      ∃ pid a, e = Event.subscribe pid a := by
  intro e he
  unfold harvest_earn_rewards at he
  rcases hearn : gw.earn with _ | eb
  · rw [hearn] at he
    exact absurd he (List.not_mem_nil _)
  · rw [hearn] at he
    exact harvestLoop_mem gw eb.flexible e he

theorem liqRedeemLoop_mem (gw : Gateway) :
    ∀ rows : List EarnRow, ∀ e ∈ unwrapE (liqRedeemLoop gw rows),
      ∃ pid a, e = Event.redeem pid a := by
  intro rows
  induction rows with
  | nil =>
    intro e he
    simp [liqRedeemLoop, unwrapE] at he
  | cons pos rest ih =>
    intro e he
    simp only [liqRedeemLoop] at he
    by_cases h1 : pos.asset = "ETH" ∨ pos.asset = "SOL"
    · rw [if_pos h1] at he
      by_cases h2 : pos.totalAmount > 0
      · rw [if_pos h2] at he
        by_cases h3 : gw.redeemOk pos.productId pos.totalAmount = true
        · rw [if_pos h3] at he
          rcases hrest : liqRedeemLoop gw rest with evs | evs <;> rw [hrest] at he <;>
            simp only [unwrapE, List.mem_cons] at he <;>
            (rcases he with rfl | he
             · exact ⟨_, _, rfl⟩
             · exact ih e (by rw [hrest]; simpa [unwrapE] using he))
        · rw [if_neg h3] at he
          simp [unwrapE] at he
      · rw [if_neg h2] at he
        exact ih e he
    · rw [if_neg h1] at he
      exact ih e he

theorem liqRepayLoop_mem (gw : Gateway) :
    ∀ rows : List LoanRow, ∀ e ∈ unwrapE (liqRepayLoop gw rows),
      ∃ oid a, e = Event.repay oid a := by
  intro rows
  induction rows with
  | nil =>
    intro e he
    simp [liqRepayLoop, unwrapE] at he
  | cons row rest ih =>
    intro e he
    simp only [liqRepayLoop] at he
    by_cases h1 : row.status = "BORROWING"
    · rw [if_pos h1] at he
      by_cases h2 : gw.repayOk row.orderId row.totalAmount = true
      · rw [if_pos h2] at he
        rcases hrest : liqRepayLoop gw rest with evs | evs <;> rw [hrest] at he <;>
          simp only [unwrapE, List.mem_cons] at he <;>
          (rcases he with rfl | he
           · exact ⟨_, _, rfl⟩
           · exact ih e (by rw [hrest]; simpa [unwrapE] using he))
      · rw [if_neg h2] at he
        simp [unwrapE] at he
    · rw [if_neg h1] at he
      exact ih e he

theorem liquidate_mem_shape (gw : Gateway) :
    ∀ e ∈ liquidate_all_positions gw,
      (∃ pid a, e = Event.redeem pid a) ∨ e = Event.sleep 10 ∨
      ∃ oid a, e = Event.repay oid a := by
  intro e he
  unfold liquidate_all_positions at he
  split at he
  · exact absurd he (List.not_mem_nil _)
  · next eb heq =>
    split at he
    · next evs hred =>
      exact Or.inl (liqRedeemLoop_mem gw eb.flexible e (by rw [hred]; simpa [unwrapE] using he))
    · next evs1 hred =>
      split at he
      · rcases List.mem_append.mp he with h | h
        · exact Or.inl (liqRedeemLoop_mem gw eb.flexible e (by rw [hred]; simpa [unwrapE] using h))
        · exact Or.inr (Or.inl (List.mem_singleton.mp h))
      · next ld hld =>
        split at he
        · next evs2 hrep =>
          rcases List.mem_append.mp he with h | h
          · rcases List.mem_append.mp h with h2 | h2
            · exact Or.inl (liqRedeemLoop_mem gw eb.flexible e (by rw [hred]; simpa [unwrapE] using h2))
            · exact Or.inr (Or.inl (List.mem_singleton.mp h2))
          · exact Or.inr (Or.inr (liqRepayLoop_mem gw ld.rows e (by rw [hrep]; simpa [unwrapE] using h)))
        · next evs2 hrep =>
          rcases List.mem_append.mp he with h | h
          · rcases List.mem_append.mp h with h2 | h2
            · exact Or.inl (liqRedeemLoop_mem gw eb.flexible e (by rw [hred]; simpa [unwrapE] using h2))
            · exact Or.inr (Or.inl (List.mem_singleton.mp h2))
          · exact Or.inr (Or.inr (liqRepayLoop_mem gw ld.rows e (by rw [hrep]; simpa [unwrapE] using h)))

/-- C6 counterexample: with a gateway whose ETH borrow endpoint raises while
the SOL endpoint works, the increase path issues no SOL borrow at all —
the failure of the first leg prevents the sibling leg from being attempted —
whereas on the all-succeeding gateway the same portfolio does get the SOL
leg. -/
theorem claim_C6_leg_isolation_counterexample :
    gwEthBorrowFail.borrowOk "ETH" (1 / 4) "SOL" = false ∧
    gwEthBorrowFail.borrowOk "SOL" 5 "ETH" = true ∧
    Event.borrow "SOL" 5 "ETH" ∈ increase_leverage gwAllOk pUnder ∧
    increase_leverage gwEthBorrowFail pUnder = [] := by
  refine ⟨rfl, rfl, ?_, ?_⟩
  · norm_num +decide [increase_leverage, gwAllOk, pUnder, TARGET_LTV_MIN, TARGET_LTV_MAX]
  · norm_num +decide [increase_leverage, gwEthBorrowFail, gwAllOk, pUnder,
      TARGET_LTV_MIN, TARGET_LTV_MAX]

/-- C6 amended: an error inside one borrow leg or one harvest position is
caught and logged, but at the granularity of the whole multi-leg operation
rather than the individual leg: a failing ETH borrow leg aborts the whole
increase operation (the SOL leg is not attempted), and a failing redeem on
the first harvest position aborts the remaining positions for that cycle.
The failure never propagates out of the operation: the enclosing
normal-operation branch still appends its transaction. -/
theorem claim_C6_leg_isolation_amended :
    (∀ gw p,
      0 < p.total_value * ((TARGET_LTV_MIN + TARGET_LTV_MAX) / 2) -
          p.total_value * p.current_ltv →
      1 / 1000 < (p.total_value * ((TARGET_LTV_MIN + TARGET_LTV_MAX) / 2) -
          p.total_value * p.current_ltv) * (1 / 2) / p.eth_price →
      ¬p.eth_price = 0 → ¬p.sol_price = 0 →
      gw.borrowOk "ETH" ((p.total_value * ((TARGET_LTV_MIN + TARGET_LTV_MAX) / 2) -
          p.total_value * p.current_ltv) * (1 / 2) / p.eth_price) "SOL" = false →
      increase_leverage gw p = []) ∧
    (∀ gw eb pos rest, gw.earn = some eb → eb.flexible = pos :: rest →
      (pos.asset = "ETH" ∨ pos.asset = "SOL") → 0 < pos.totalAmount → 0 < pos.freeAmount →
      gw.redeemOk pos.productId pos.freeAmount = false →
      harvest_earn_rewards gw = []) ∧
    (∀ gw p, Event.logTx p.user_id "NORMAL_OPERATION" p.eth_balance p.sol_balance p.current_ltv
      ∈ normal_operation gw p) := by
  refine ⟨?_, ?_, ?_⟩
  · intro gw p h0 hmin hep hsp hfail
    simp only [increase_leverage]
    rw [if_neg (not_le.mpr h0), if_neg hep, if_neg hsp, if_pos hmin,
      if_neg (fun hc => by rw [hfail] at hc; exact Bool.false_ne_true hc)]
  · intro gw eb pos rest hearn hflex hasset htot hfree hfail
    unfold harvest_earn_rewards
    rw [hearn]
    show unwrapE (harvestLoop gw eb.flexible) = []
    rw [hflex]
    simp only [harvestLoop]
    rw [if_pos ⟨hasset, htot⟩, if_pos hfree,
      if_neg (fun hc => by rw [hfail] at hc; exact Bool.false_ne_true hc)]
    rfl
  · intro gw p
    unfold normal_operation log_transaction
    simp

/-- C6 amended witness: on the concrete gateway whose ETH borrow endpoint
raises, the increase operation for the under-levered portfolio issues
nothing. -/
theorem claim_C6_leg_isolation_amended_witness :
    increase_leverage gwEthBorrowFail pUnder = [] :=
  claim_C6_leg_isolation_amended.1 gwEthBorrowFail pUnder
    (by norm_num [pUnder, TARGET_LTV_MIN, TARGET_LTV_MAX])
    (by norm_num [pUnder, TARGET_LTV_MIN, TARGET_LTV_MAX])
    (by norm_num [pUnder]) (by norm_num [pUnder]) rfl

theorem danger_mem_shape (gw : Gateway) (p : Portfolio) :
    ∀ e ∈ danger_zone_management gw p,
      (∃ oid a, e = Event.repay oid a) ∨
      e = Event.alert "Danger Zone Alert" "INFO" "SYSTEM" ∨
      e = Event.logTx p.user_id "DANGER_ZONE" p.eth_balance p.sol_balance p.current_ltv := by
  intro e he
  unfold danger_zone_management send_alert_default log_transaction at he
  rcases List.mem_append.mp he with h | h
  · rcases List.mem_append.mp h with h2 | h2
    · exact Or.inl (decrease_only_repays gw p true e h2)
    · exact Or.inr (Or.inl (List.mem_singleton.mp h2))
  · exact Or.inr (Or.inr (List.mem_singleton.mp h))

/-- A gateway whose loan book puts the refreshed snapshot of `pStale` at an
LTV of 0.72, inside the danger band. -/
def gwDangerSnap : Gateway :=
  { gwAllOk with loan := some ⟨[⟨1, "ETH", "BORROWING", 108 / 25⟩]⟩ }

/-- C7 counterexample: in the danger band the dispatched alert carries the
default severity INFO, not WARNING — no warning-severity alert is emitted. -/
theorem claim_C7_danger_warning_counterexample :
    DANGER_LTV ≤ pDangerBand.current_ltv ∧ pDangerBand.current_ltv < EMERGENCY_LTV ∧
    danger_zone_management gwAllOk pDangerBand =
      [Event.repay 1 1, Event.repay 2 5,
       Event.alert "Danger Zone Alert" "INFO" "SYSTEM",
       Event.logTx 1 "DANGER_ZONE" 3 20 (18 / 25)] ∧
    Event.alert "Danger Zone Alert" "WARNING" "SYSTEM" ∉
      danger_zone_management gwAllOk pDangerBand := by
  have h3 : danger_zone_management gwAllOk pDangerBand =
      [Event.repay 1 1, Event.repay 2 5,
       Event.alert "Danger Zone Alert" "INFO" "SYSTEM",
       Event.logTx 1 "DANGER_ZONE" 3 20 (18 / 25)] := by
    simp [danger_zone_management, decrease_leverage, decreaseLoop, unwrapE,
      send_alert_default, log_transaction, gwAllOk, pDangerBand, repay_fraction]
    norm_num
  refine ⟨by norm_num [pDangerBand, DANGER_LTV], by norm_num [pDangerBand, EMERGENCY_LTV],
    h3, ?_⟩
  rw [h3]
  simp

/-- C7 amended: whenever the refreshed LTV satisfies danger ≤ LTV <
emergency, the cycle runs exactly the aggressive leverage decrease, one
alert titled "Danger Zone Alert" at the default severity INFO, and one
DANGER_ZONE ledger append — and no earn redeem or subscribe (no harvesting)
happens that cycle. -/
theorem claim_C7_danger_actions_amended :
    ∀ gw es p, (update_portfolio_data gw es p).ok = true →
      DANGER_LTV ≤ (update_portfolio_data gw es p).p.current_ltv →
      (update_portfolio_data gw es p).p.current_ltv < EMERGENCY_LTV →
      (process_portfolio gw es p).events =
        (update_portfolio_data gw es p).events ++
          (decrease_leverage gw (update_portfolio_data gw es p).p true ++
           send_alert_default "Danger Zone Alert" ++
           log_transaction (update_portfolio_data gw es p).p "DANGER_ZONE") ∧
      (∀ pid a, Event.redeem pid a ∉ (process_portfolio gw es p).events) ∧
      (∀ pid a, Event.subscribe pid a ∉ (process_portfolio gw es p).events) := by
  intro gw es p hok hge hlt
  have hd := process_events_dispatch gw es p hok
  have htier : classifyTier (update_portfolio_data gw es p).p.current_ltv
      TARGET_LTV_MIN TARGET_LTV_MAX DANGER_LTV EMERGENCY_LTV = Tier.danger := by
    unfold classifyTier
    rw [if_neg (not_le.mpr hlt), if_pos hge]
  rw [htier] at hd
  refine ⟨?_, ?_, ?_⟩
  · rw [hd]
    simp only [tierAction, danger_zone_management]
  · intro pid a hmem
    rw [hd] at hmem
    rcases List.mem_append.mp hmem with h | h
    · obtain ⟨c, b, hcb⟩ := update_events_commit gw es p _ h
      simp at hcb
    · rcases danger_mem_shape gw _ _ h with ⟨oid, a', heq⟩ | heq | heq <;> simp at heq
  · intro pid a hmem
    rw [hd] at hmem
    rcases List.mem_append.mp hmem with h | h
    · obtain ⟨c, b, hcb⟩ := update_events_commit gw es p _ h
      simp at hcb
    · rcases danger_mem_shape gw _ _ h with ⟨oid, a', heq⟩ | heq | heq <;> simp at heq

/-- C7 amended witness: on a concrete gateway whose loan book drives the
snapshot to LTV 0.72, the cycle emits no redeem event. -/
theorem claim_C7_danger_actions_amended_witness :
    Event.redeem "PE" 1 ∉ (process_portfolio gwDangerSnap esIdle pStale).events :=
  ((claim_C7_danger_actions_amended gwDangerSnap esIdle pStale
    (by simp [update_portfolio_data, snapshotCore, get_symbol_price, get_total_balance,
      calc_total_borrowed_value, check_price_movements, gwDangerSnap, gwAllOk, esIdle, pStale,
      REBALANCE_THRESHOLD])
    (by simp [update_portfolio_data, snapshotCore, get_symbol_price, get_total_balance,
      calc_total_borrowed_value, check_price_movements, gwDangerSnap, gwAllOk, esIdle, pStale,
      REBALANCE_THRESHOLD, DANGER_LTV] <;> norm_num)
    (by simp [update_portfolio_data, snapshotCore, get_symbol_price, get_total_balance,
      calc_total_borrowed_value, check_price_movements, gwDangerSnap, gwAllOk, esIdle, pStale,
      REBALANCE_THRESHOLD, EMERGENCY_LTV] <;> norm_num)).2.1) "PE" 1

theorem liqRedeemLoop_complete (gw : Gateway)
    (hok : ∀ pid a, gw.redeemOk pid a = true) :
    ∀ rows : List EarnRow, liqRedeemLoop gw rows = Sum.inr (expected_liq_redeems rows) := by
  intro rows
  induction rows with
  | nil => simp [liqRedeemLoop, expected_liq_redeems]
  | cons pos rest ih =>
    simp only [liqRedeemLoop]
    rw [ih]
    by_cases h1 : pos.asset = "ETH" ∨ pos.asset = "SOL"
    · by_cases h2 : pos.totalAmount > 0
      · simp [h1, h2, hok, expected_liq_redeems, List.filterMap_cons]
      · simp [h1, h2, expected_liq_redeems, List.filterMap_cons]
    · simp [h1, expected_liq_redeems, List.filterMap_cons]

theorem liqRepayLoop_complete (gw : Gateway)
    (hok : ∀ oid a, gw.repayOk oid a = true) :
    ∀ rows : List LoanRow, liqRepayLoop gw rows = Sum.inr (expected_liq_repays rows) := by
  intro rows
  induction rows with
  | nil => simp [liqRepayLoop, expected_liq_repays]
  | cons row rest ih =>
    simp only [liqRepayLoop]
    rw [ih]
    by_cases h1 : row.status = "BORROWING"
    · simp [h1, hok, expected_liq_repays, List.filterMap_cons]
    · simp [h1, expected_liq_repays, List.filterMap_cons]

/-- C8 counterexample: with the only open earn position a locked ETH
position of 5 units, the emergency sequence redeems nothing — locked
positions are never redeemed — and the recorded alert carries the default
severity INFO, not critical. -/
theorem claim_C8_emergency_counterexample :
    gwLockedOnly.earn = some ⟨[], [⟨"ETH", "LP", 5, 0⟩]⟩ ∧
    (emergency_liquidation gwLockedOnly pEmergencyBand).2 =
      [Event.setStatus "emergency", Event.sleep 10,
       Event.alert "EMERGENCY LIQUIDATION" "INFO" "SYSTEM",
       Event.logTx 1 "EMERGENCY_LIQUIDATION" 3 20 (39 / 50)] ∧
    Event.redeem "LP" 5 ∉ (emergency_liquidation gwLockedOnly pEmergencyBand).2 := by
  have h2 : (emergency_liquidation gwLockedOnly pEmergencyBand).2 =
      [Event.setStatus "emergency", Event.sleep 10,
       Event.alert "EMERGENCY LIQUIDATION" "INFO" "SYSTEM",
       Event.logTx 1 "EMERGENCY_LIQUIDATION" 3 20 (39 / 50)] := by
    simp [emergency_liquidation, liquidate_all_positions, liqRedeemLoop, liqRepayLoop,
      gwLockedOnly, gwAllOk, send_alert_default, log_transaction, pEmergencyBand]
  refine ⟨rfl, h2, ?_⟩
  rw [h2]
  simp

/-- C8 amended: the emergency sequence sets Portfolio.status to emergency
first (the status event heads the trace, before any redemption), then — when
no gateway call raises — redeems exactly the open flexible earn positions in
the two strategy assets with positive amount (locked positions are not
touched), waits a fixed settlement interval, then repays every BORROWING
loan with its full outstanding amount; an alert at the default severity INFO
and an EMERGENCY_LIQUIDATION ledger append are recorded after the sequence,
whether or not its calls succeeded, with no rollback on mid-sequence failure. -/
theorem claim_C8_emergency_sequence_amended :
    (∀ gw p, (emergency_liquidation gw p).1.status = "emergency" ∧
      (emergency_liquidation gw p).2 =
        Event.setStatus "emergency" :: (liquidate_all_positions gw ++
          send_alert_default "EMERGENCY LIQUIDATION" ++
          log_transaction { p with status := "emergency" } "EMERGENCY_LIQUIDATION")) ∧
    (∀ gw eb ld, gw.earn = some eb → gw.loan = some ld →
      (∀ pid a, gw.redeemOk pid a = true) → (∀ oid a, gw.repayOk oid a = true) →
      liquidate_all_positions gw =
        expected_liq_redeems eb.flexible ++ [Event.sleep 10] ++
          expected_liq_repays ld.rows) := by
  constructor
  · exact fun gw p => ⟨rfl, rfl⟩
  · intro gw eb ld hearn hld hred hrep
    unfold liquidate_all_positions
    split
    · next heq =>
      rw [hearn] at heq
      exact absurd heq (by simp)
    · next eb' heq =>
      rw [hearn] at heq
      injection heq with h1
      subst h1
      split
      · next evs hred2 =>
        rw [liqRedeemLoop_complete gw hred eb.flexible] at hred2
        exact absurd hred2 (by simp)
      · next evs1 hred2 =>
        rw [liqRedeemLoop_complete gw hred eb.flexible] at hred2
        obtain rfl : expected_liq_redeems eb.flexible = evs1 := by injection hred2
        split
        · next hld2 =>
          rw [hld] at hld2
          exact absurd hld2 (by simp)
        · next ld' hld2 =>
          rw [hld] at hld2
          injection hld2 with h3
          subst h3
          split
          · next evs2 hrep2 =>
            rw [liqRepayLoop_complete gw hrep ld.rows] at hrep2
            exact absurd hrep2 (by simp)
          · next evs2 hrep2 =>
            rw [liqRepayLoop_complete gw hrep ld.rows] at hrep2
            obtain rfl : expected_liq_repays ld.rows = evs2 := by injection hrep2
            rfl

/-- C8 amended witness: on the all-succeeding gateway the liquidation
sequence redeems the flexible position in full, waits, and repays both loans
in full. -/
theorem claim_C8_emergency_sequence_amended_witness :
    liquidate_all_positions gwAllOk =
      [Event.redeem "PE" 2, Event.sleep 10, Event.repay 1 2, Event.repay 2 10] := by
  have h := claim_C8_emergency_sequence_amended.2 gwAllOk ⟨[⟨"ETH", "PE", 2, 1⟩], []⟩
    ⟨[⟨1, "ETH", "BORROWING", 2⟩, ⟨2, "SOL", "BORROWING", 10⟩]⟩ rfl rfl
    (fun _ _ => rfl) (fun _ _ => rfl)
  rw [h]
  simp [expected_liq_redeems, expected_liq_repays, List.filterMap_cons]

theorem no_logTx_filter {l : List Event} (h : ∀ e ∈ l, isLogTx e = false) :
    l.filter isLogTx = [] := by
  induction l with
  | nil => rfl
  | cons a t ih =>
    have ha := h a (List.mem_cons_self a t)
    simp [List.filter_cons, ha, ih (fun e he => h e (List.mem_cons_of_mem a he))]

/-- C9: after a successful snapshot, every tier branch of the cycle appends
exactly one ledger record — never zero, never more than one — and that
record carries the refreshed portfolio balances and LTV at decision time. -/
theorem claim_C9_single_ledger_append :
    ∀ gw es p, (update_portfolio_data gw es p).ok = true →
      ((process_portfolio gw es p).events.filter isLogTx).length = 1 ∧
      (∀ uid t ea sa l, Event.logTx uid t ea sa l ∈ (process_portfolio gw es p).events →
        ea = (update_portfolio_data gw es p).p.eth_balance ∧
        sa = (update_portfolio_data gw es p).p.sol_balance ∧
        l = (update_portfolio_data gw es p).p.current_ltv) := by
  intro gw es p hok
  have hd := process_events_dispatch gw es p hok
  have hu0 : (update_portfolio_data gw es p).events.filter isLogTx = [] :=
    no_logTx_filter (fun e he => by
      obtain ⟨c, b, rfl⟩ := update_events_commit gw es p e he; rfl)
  have hharv : (harvest_earn_rewards gw).filter isLogTx = [] :=
    no_logTx_filter (fun e he => by
      rcases harvest_mem_shape gw e he with ⟨pid, a, rfl⟩ | rfl | ⟨pid, a, rfl⟩ <;> rfl)
  have hinc : (increase_leverage gw (update_portfolio_data gw es p).p).filter isLogTx = [] :=
    no_logTx_filter (fun e he => by
      obtain ⟨c, a, cc, rfl⟩ := increase_mem_borrow gw _ e he; rfl)
  have hdecT : ∀ b, (decrease_leverage gw (update_portfolio_data gw es p).p b).filter
      isLogTx = [] :=
    fun b => no_logTx_filter (fun e he => by
      obtain ⟨oid, a, rfl⟩ := decrease_only_repays gw _ b e he; rfl)
  have hliq : (liquidate_all_positions gw).filter isLogTx = [] :=
    no_logTx_filter (fun e he => by
      rcases liquidate_mem_shape gw e he with ⟨pid, a, rfl⟩ | rfl | ⟨oid, a, rfl⟩ <;> rfl)
  constructor
  · rw [hd]
    cases htier : classifyTier (update_portfolio_data gw es p).p.current_ltv
        TARGET_LTV_MIN TARGET_LTV_MAX DANGER_LTV EMERGENCY_LTV
    · simp [tierAction, List.filter_append, hu0, hharv, hinc, log_transaction, isLogTx]
    · simp [tierAction, List.filter_append, hu0, hharv, log_transaction, isLogTx]
    · simp [tierAction, List.filter_append, hu0, hharv, hdecT false, log_transaction, isLogTx]
    · simp [tierAction, danger_zone_management, List.filter_append, hu0, hdecT true,
        send_alert_default, log_transaction, isLogTx]
    · simp [tierAction, emergency_liquidation, List.filter_append, List.filter_cons, hu0,
        hliq, send_alert_default, log_transaction, isLogTx]
  · intro uid t ea sa l hmem
    rw [hd] at hmem
    rcases List.mem_append.mp hmem with h | h
    · obtain ⟨c, b, hcb⟩ := update_events_commit gw es p _ h
      simp at hcb
    · cases htier : classifyTier (update_portfolio_data gw es p).p.current_ltv
          TARGET_LTV_MIN TARGET_LTV_MAX DANGER_LTV EMERGENCY_LTV <;>
        rw [htier] at h <;>
        simp only [tierAction, danger_zone_management, emergency_liquidation,
          send_alert_default, log_transaction] at h
      · rcases List.mem_append.mp h with h2 | h2
        · rcases List.mem_append.mp h2 with h3 | h3
          · rcases harvest_mem_shape gw _ h3 with ⟨pid, a, heq⟩ | heq | ⟨pid, a, heq⟩ <;>
              simp at heq
          · obtain ⟨c, a, cc, heq⟩ := increase_mem_borrow gw _ _ h3
            simp at heq
        · have heq := List.mem_singleton.mp h2
          rw [Event.logTx.injEq] at heq
          exact ⟨heq.2.2.1, heq.2.2.2.1, heq.2.2.2.2⟩
      · rcases List.mem_append.mp h with h2 | h2
        · rcases harvest_mem_shape gw _ h2 with ⟨pid, a, heq⟩ | heq | ⟨pid, a, heq⟩ <;>
            simp at heq
        · have heq := List.mem_singleton.mp h2
          rw [Event.logTx.injEq] at heq
          exact ⟨heq.2.2.1, heq.2.2.2.1, heq.2.2.2.2⟩
      · rcases List.mem_append.mp h with h2 | h2
        · rcases List.mem_append.mp h2 with h3 | h3
          · rcases harvest_mem_shape gw _ h3 with ⟨pid, a, heq⟩ | heq | ⟨pid, a, heq⟩ <;>
              simp at heq
          · obtain ⟨oid, a, heq⟩ := decrease_only_repays gw _ false _ h3
            simp at heq
        · have heq := List.mem_singleton.mp h2
          rw [Event.logTx.injEq] at heq
          exact ⟨heq.2.2.1, heq.2.2.2.1, heq.2.2.2.2⟩
      · rcases List.mem_append.mp h with h2 | h2
        · rcases List.mem_append.mp h2 with h3 | h3
          · obtain ⟨oid, a, heq⟩ := decrease_only_repays gw _ true _ h3
            simp at heq
          · have heq := List.mem_singleton.mp h3
            simp at heq
        · have heq := List.mem_singleton.mp h2
          rw [Event.logTx.injEq] at heq
          exact ⟨heq.2.2.1, heq.2.2.2.1, heq.2.2.2.2⟩
      · rcases List.mem_cons.mp h with h2 | h2
        · simp at h2
        · rcases List.mem_append.mp h2 with h3 | h3
          · rcases List.mem_append.mp h3 with h4 | h4
            · rcases liquidate_mem_shape gw _ h4 with ⟨pid, a, heq⟩ | heq | ⟨oid, a, heq⟩ <;>
                simp at heq
            · have heq := List.mem_singleton.mp h4
              simp at heq
          · have heq := List.mem_singleton.mp h3
            rw [Event.logTx.injEq] at heq
            exact ⟨heq.2.2.1, heq.2.2.2.1, heq.2.2.2.2⟩

/-- C9 witness: on the all-succeeding gateway the cycle for the stale
portfolio appends exactly one ledger record. -/
theorem claim_C9_single_ledger_append_witness :
    ((process_portfolio gwAllOk esIdle pStale).events.filter isLogTx).length = 1 :=
  (claim_C9_single_ledger_append gwAllOk esIdle pStale (by
    norm_num +decide [update_portfolio_data, snapshotCore, get_symbol_price, get_total_balance,
      calc_total_borrowed_value, check_price_movements, gwAllOk, esIdle, pStale,
      REBALANCE_THRESHOLD])).1

theorem update_initial_failure (gw : Gateway) (es : EngineState) (p : Portfolio)
    (hfail : initial_query_failure gw es) :
    (update_portfolio_data gw es p).ok = false ∧
    (update_portfolio_data gw es p).p = p ∧
    (update_portfolio_data gw es p).events = [] := by
  rcases hsc : snapshotCore gw es p with ⟨es', p'⟩ | ⟨es', p2, tcv, tbv⟩
  · rw [update_of_inl gw es p es' p' hsc]
    refine ⟨rfl, ?_, rfl⟩
    show p' = p
    unfold snapshotCore at hsc
    split at hsc
    · rw [Sum.inl.injEq, Prod.mk.injEq] at hsc
      exact hsc.2.symm
    · next spot hspot =>
      split at hsc
      · rw [Sum.inl.injEq, Prod.mk.injEq] at hsc
        exact hsc.2.symm
      · next earn hearn =>
        split at hsc
        · rw [Sum.inl.injEq, Prod.mk.injEq] at hsc
          exact hsc.2.symm
        · next loan hloan =>
          split at hsc
          · rw [Sum.inl.injEq, Prod.mk.injEq] at hsc
            exact hsc.2.symm
          · next ethP es1 heth =>
            split at hsc
            · rw [Sum.inl.injEq, Prod.mk.injEq] at hsc
              exact hsc.2.symm
            · next solP es2 hsol =>
              split at hsc
              · rcases hfail with h | h | h | h | h
                · rw [h] at hspot
                  exact absurd hspot (by simp)
                · rw [h] at hearn
                  exact absurd hearn (by simp)
                · rw [h] at hloan
                  exact absurd hloan (by simp)
                · rw [get_symbol_price_eth] at heth
                  rw [h] at heth
                  exact absurd heth (by simp)
                · rw [get_symbol_price_eth, Prod.mk.injEq] at heth
                  obtain ⟨-, h2⟩ := heth
                  subst h2
                  have h' : gw.solPrices[es.solPriceIdx]?.getD none = none := by
                    rw [← List.getD_eq_getElem?_getD]
                    exact h
                  rw [get_symbol_price_sol] at hsol
                  simp [h'] at hsol
              · exact absurd hsc (by simp)
  · exfalso
    unfold snapshotCore at hsc
    split at hsc
    · exact absurd hsc (by simp)
    · next spot hspot =>
      split at hsc
      · exact absurd hsc (by simp)
      · next earn hearn =>
        split at hsc
        · exact absurd hsc (by simp)
        · next loan hloan =>
          split at hsc
          · exact absurd hsc (by simp)
          · next ethP es1 heth =>
            split at hsc
            · exact absurd hsc (by simp)
            · next solP es2 hsol =>
              split at hsc
              · exact absurd hsc (by simp)
              · rcases hfail with h | h | h | h | h
                · rw [h] at hspot
                  exact absurd hspot (by simp)
                · rw [h] at hearn
                  exact absurd hearn (by simp)
                · rw [h] at hloan
                  exact absurd hloan (by simp)
                · rw [get_symbol_price_eth] at heth
                  rw [h] at heth
                  exact absurd heth (by simp)
                · rw [get_symbol_price_eth, Prod.mk.injEq] at heth
                  obtain ⟨-, h2⟩ := heth
                  subst h2
                  have h' : gw.solPrices[es.solPriceIdx]?.getD none = none := by
                    rw [← List.getD_eq_getElem?_getD]
                    exact h
                  rw [get_symbol_price_sol] at hsol
                  simp [h'] at hsol

/-- C3 counterexample: on a gateway where the price re-query performed
inside the borrowed-value computation raises (after the balance and price
queries succeeded), the snapshot build aborts with the portfolio's balance
fields already overwritten — the eth_balance moved from its stale value 7 to
the freshly fetched 5. -/
theorem claim_C3_snapshot_abort_counterexample :
    (update_portfolio_data gwRequeryFail esIdle pStale).ok = false ∧
    (update_portfolio_data gwRequeryFail esIdle pStale).p.eth_balance = 5 ∧
    pStale.eth_balance = 7 := by
  refine ⟨?_, ?_, rfl⟩ <;>
    simp [update_portfolio_data, snapshotCore, get_symbol_price, get_total_balance,
      calc_total_borrowed_value, check_price_movements, gwRequeryFail, gwAllOk, esIdle,
      pStale, REBALANCE_THRESHOLD] <;>
    norm_num

/-- C3 amended: a failure of any of the five initial queries (spot balances,
earn balances, loan list, first ETH price, first SOL price) aborts the
snapshot before any portfolio mutation, leaving the record untouched.  A
failure of the price re-query inside the borrowed-value computation aborts
after the balance and price fields were already overwritten, but total
value, LTV, status and timestamp are untouched and nothing is committed.
In every failed-snapshot case the cycle takes no risk action: processing
emits only what the failed update emitted, which is at most a commit
event. -/
theorem claim_C3_snapshot_abort_amended :
    ∀ gw es p,
      (initial_query_failure gw es →
        (update_portfolio_data gw es p).ok = false ∧
        (update_portfolio_data gw es p).p = p ∧
        (update_portfolio_data gw es p).events = []) ∧
      ((update_portfolio_data gw es p).ok = false →
        (update_portfolio_data gw es p).events = [] →
        (update_portfolio_data gw es p).p.total_value = p.total_value ∧
        (update_portfolio_data gw es p).p.current_ltv = p.current_ltv ∧
        (update_portfolio_data gw es p).p.status = p.status ∧
        (update_portfolio_data gw es p).p.last_updated = p.last_updated) ∧
      ((update_portfolio_data gw es p).ok = false →
        (process_portfolio gw es p).events = (update_portfolio_data gw es p).events ∧
        (process_portfolio gw es p).p = (update_portfolio_data gw es p).p ∧
        ∀ e ∈ (process_portfolio gw es p).events, ∃ c b, e = Event.commit c b) := by
  intro gw es p
  refine ⟨update_initial_failure gw es p, ?_, ?_⟩
  · intro hok hev
    rcases hsc : snapshotCore gw es p with ⟨es', p'⟩ | ⟨es', p2, tcv, tbv⟩
    · rw [update_of_inl gw es p es' p' hsc]
      exact snapshotCore_inl_frame gw es p es' p' hsc
    · rcases hc : check_price_movements es' p2.eth_price p2.sol_price with _ | es''
      · rw [update_of_inr_none gw es p es' p2 tcv tbv hsc hc] at hev
        simp at hev
      · rw [update_of_inr_some gw es p es' es'' p2 tcv tbv hsc hc] at hok
        simp at hok
  · intro hok
    have hpass : process_portfolio gw es p =
        ⟨(update_portfolio_data gw es p).es, (update_portfolio_data gw es p).p,
         (update_portfolio_data gw es p).events, true⟩ := by
      simp [process_portfolio, hok]
    rw [hpass]
    exact ⟨rfl, rfl, update_events_commit gw es p⟩

/-- C3 amended witness: when the spot-balance query itself fails, the
portfolio record is returned untouched. -/
theorem claim_C3_snapshot_abort_amended_witness :
    (update_portfolio_data gwSpotFail esIdle pStale).p = pStale :=
  ((claim_C3_snapshot_abort_amended gwSpotFail esIdle pStale).1 (Or.inl rfl)).2.1

/-- C10: an automation-cycle invocation that finds the execution guard
already held returns immediately as a no-op: the engine state, the portfolio
list and the absence of any emitted event (so no loan, earn, ledger or alert
effect) are all unchanged. -/
theorem claim_C10_guard_noop (gw : Gateway) (es : EngineState) (ps : List Portfolio)
    (h : es.is_running = true) :
    run_automation_cycle gw es ps = (es, ps, []) := by
  unfold run_automation_cycle
  rw [h]
  simp

/-- C10 witness: with the guard held, the cycle leaves a concrete state
untouched. -/
theorem claim_C10_guard_noop_witness :
    run_automation_cycle gwAllOk esBusy [pStale] = (esBusy, [pStale], []) :=
  claim_C10_guard_noop gwAllOk esBusy [pStale] rfl

end VRA
